import Mathlib

/-!
Verification of `block_bootstrap` / `mean_diff` from
`src/memos/SF-Arrests/stats_utilities.py`.

Embedding choices:
* Series elements are rationals (`ℚ`), the exact-arithmetic reading of the
  numeric sequences in the source.
* The random source is an abstract stream `g : Nat → Nat` of raw draws;
  `np.random.choice(range(pop), size=k, replace=True)` consuming the draws
  at stream positions `t0, t0+1, ..., t0+k-1` yields the indices
  `g (t0+t) % pop`, each a uniform integer in `[0, pop)` when `g` is a
  sample path of a uniform generator.  Replicate `i` consumes the draws at
  positions `i*k, ..., i*k + k - 1`.
* `np.random.choice` on an empty population raises `ValueError` exactly when
  samples are requested; `np.concatenate([])` raises `ValueError`; Python's
  `n // 0` raises `ZeroDivisionError`.  These are the `NpError` constructors.
* Python slicing `ts[j : j+b]` truncates at the end of the list.
-/

/-- Arithmetic mean, `np.mean` over exact rationals. -/
def mean (xs : List ℚ) : ℚ := xs.sum / xs.length

/-- `mean_diff(x, y) = np.mean(x) - np.mean(y)` from the source. -/
def mean_diff (x y : List ℚ) : ℚ := mean x - mean y

/-- Python slice `ts[j : j + b]`. -/
def pySlice (ts : List ℚ) (j b : Nat) : List ℚ := (ts.drop j).take b

/-- The run-time errors the numpy/Python operations in `block_bootstrap`
can raise. -/
inductive NpError where
  /-- `ZeroDivisionError` from `n // block_size` with `block_size = 0`. -/
  | zeroDivision
  /-- `ValueError` from `np.random.choice` on an empty population when
  samples are requested. -/
  | emptyChoice
  /-- `ValueError` from `np.concatenate([])`. -/
  | emptyConcatenate
  deriving DecidableEq, Repr

/-- `np.random.choice(range(pop), size=k, replace=True)`, consuming the raw
draws at stream positions `t0, ..., t0 + k - 1` of `g`. -/
def npChoice (g : Nat → Nat) (t0 pop k : Nat) : Except NpError (List Nat) :=
  if pop = 0 ∧ k ≠ 0 then .error .emptyChoice
  else .ok ((List.range k).map (fun t => g (t0 + t) % pop))

/-- `np.concatenate` over a Python list of sequences. -/
def npConcat (xss : List (List ℚ)) : Except NpError (List ℚ) :=
  if xss.isEmpty then .error .emptyConcatenate else .ok xss.flatten

/-- Population size of `range(n - block_size + 1)`: Python computes the bound
in ℤ and `range` of a non-positive bound is empty. -/
def popSize (n block_size : Nat) : Nat := ((n : Int) - block_size + 1).toNat

/-- One iteration of the `for i in range(n_bootstraps)` loop of
`block_bootstrap`: draw the block start indices, slice both series at the
same indices, concatenate, truncate to `n`, and return the replicate
statistic. -/
def bootstrap_iter (g : Nat → Nat) (ts1 ts2 : List ℚ) (block_size n i : Nat) :
    Except NpError ℚ :=
  if block_size = 0 then .error .zeroDivision
  else do
    let k := n / block_size
    let blocks ← npChoice g (i * k) (popSize n block_size) k
    let ts1_resampled ← npConcat (blocks.map (fun j => pySlice ts1 j block_size))
    let ts2_resampled ← npConcat (blocks.map (fun j => pySlice ts2 j block_size))
    return mean_diff (ts1_resampled.take n) (ts2_resampled.take n)

/-- The loop body of `block_bootstrap`, filling `bootstrap_diffs` in order
and aborting at the first raised error, as the Python loop does. -/
def bootstrap_loop (g : Nat → Nat) (ts1 ts2 : List ℚ) (block_size n : Nat) :
    List Nat → Except NpError (List ℚ)
  | [] => .ok []
  | i :: rest => do
    let d ← bootstrap_iter g ts1 ts2 block_size n i
    let ds ← bootstrap_loop g ts1 ts2 block_size n rest
    return d :: ds

/-- `block_bootstrap(ts1, ts2, block_size, n_bootstraps)` from the source:
`n = len(ts1)`, the observed difference is computed on the full series before
the loop, and the pair `(observed_diff, bootstrap_diffs)` is returned. -/
def block_bootstrap (g : Nat → Nat) (ts1 ts2 : List ℚ)
    (block_size n_bootstraps : Nat) : Except NpError (ℚ × List ℚ) :=
  let n := ts1.length
  let observed_diff := mean_diff ts1 ts2
  match bootstrap_loop g ts1 ts2 block_size n (List.range n_bootstraps) with
  | .error e => .error e
  | .ok bootstrap_diffs => .ok (observed_diff, bootstrap_diffs)

/-- The block start indices replicate `i` draws (the value of `blocks` in
iteration `i` when `np.random.choice` succeeds). -/
def drawn_blocks (g : Nat → Nat) (n block_size i : Nat) : List Nat :=
  (List.range (n / block_size)).map
    (fun t => g (i * (n / block_size) + t) % popSize n block_size)

/-- A resampled series: the slices at the drawn start indices, concatenated
in draw order and truncated to the first `n` elements. -/
def resample (ts : List ℚ) (blocks : List Nat) (block_size n : Nat) : List ℚ :=
  ((blocks.map (fun j => pySlice ts j block_size)).flatten).take n

/-- The replicate statistic stored at position `i` of `bootstrap_diffs`
on the success path. -/
def replicate_stat (g : Nat → Nat) (ts1 ts2 : List ℚ) (block_size n i : Nat) : ℚ :=
  mean_diff (resample ts1 (drawn_blocks g n block_size i) block_size n)
    (resample ts2 (drawn_blocks g n block_size i) block_size n)

/-! Basic lemmas about the success path. -/

theorem popSize_pos {n block_size : Nat} (h : block_size ≤ n) :
    0 < popSize n block_size := by
  unfold popSize
  omega

theorem popSize_eq {n block_size : Nat} (h : block_size ≤ n) :
    popSize n block_size = n - block_size + 1 := by
  unfold popSize
  omega

/-- Under valid inputs one loop iteration succeeds and returns the replicate
statistic. -/
theorem bootstrap_iter_ok (g : Nat → Nat) (ts1 ts2 : List ℚ)
    (block_size n i : Nat) (hb : 1 ≤ block_size) (hn : block_size ≤ n) :
    bootstrap_iter g ts1 ts2 block_size n i =
      .ok (replicate_stat g ts1 ts2 block_size n i) := by
  have hbne : block_size ≠ 0 := by omega
  have hk : 1 ≤ n / block_size := (Nat.one_le_div_iff hb).mpr hn
  have hpop : popSize n block_size ≠ 0 := by
    have := popSize_pos hn; omega
  unfold bootstrap_iter
  rw [if_neg hbne]
  have hchoice : npChoice g (i * (n / block_size)) (popSize n block_size)
      (n / block_size) = .ok (drawn_blocks g n block_size i) := by
    unfold npChoice drawn_blocks
    rw [if_neg]
    push_neg
    intro hc
    exact absurd hc hpop
  have hblocks_ne : drawn_blocks g n block_size i ≠ [] := by
    unfold drawn_blocks
    simp only [ne_eq, List.map_eq_nil_iff, List.range_eq_nil]
    omega
  have hconcat1 : npConcat ((drawn_blocks g n block_size i).map
      (fun j => pySlice ts1 j block_size)) =
      .ok ((drawn_blocks g n block_size i).map (fun j => pySlice ts1 j block_size)).flatten := by
    unfold npConcat
    rw [if_neg]
    simp only [List.isEmpty_eq_true, List.map_eq_nil_iff]
    exact hblocks_ne
  have hconcat2 : npConcat ((drawn_blocks g n block_size i).map
      (fun j => pySlice ts2 j block_size)) =
      .ok ((drawn_blocks g n block_size i).map (fun j => pySlice ts2 j block_size)).flatten := by
    unfold npConcat
    rw [if_neg]
    simp only [List.isEmpty_eq_true, List.map_eq_nil_iff]
    exact hblocks_ne
  simp only [bind, Except.bind, hchoice, hconcat1, hconcat2]
  rfl

/-- Under valid inputs the whole call succeeds: the observed difference is
`mean_diff ts1 ts2` and `bootstrap_diffs` is the in-order list of replicate
statistics. -/
theorem block_bootstrap_ok (g : Nat → Nat) (ts1 ts2 : List ℚ)
    (block_size n_bootstraps : Nat) (hb : 1 ≤ block_size)
    (hn : block_size ≤ ts1.length) :
    block_bootstrap g ts1 ts2 block_size n_bootstraps =
      .ok (mean_diff ts1 ts2,
        (List.range n_bootstraps).map
          (replicate_stat g ts1 ts2 block_size ts1.length)) := by
  have hloop : ∀ l : List Nat,
      bootstrap_loop g ts1 ts2 block_size ts1.length l =
        .ok (l.map (replicate_stat g ts1 ts2 block_size ts1.length)) := by
    intro l
    induction l with
    | nil => rfl
    | cons i rest ih =>
      simp only [bootstrap_loop, bootstrap_iter_ok g ts1 ts2 block_size ts1.length i hb hn, ih,
        List.map_cons, bind, Except.bind]
      rfl
  simp only [block_bootstrap, hloop]

/-- A slice at a valid start index has the full block length. -/
theorem pySlice_length (ts : List ℚ) {j block_size : Nat}
    (h : j + block_size ≤ ts.length) :
    (pySlice ts j block_size).length = block_size := by
  unfold pySlice
  rw [List.length_take, List.length_drop]
  omega

/-- Every drawn start index lies in `[0, n - block_size]`. -/
theorem drawn_blocks_mem (g : Nat → Nat) {n block_size : Nat} (i : Nat)
    (hn : block_size ≤ n) :
    ∀ j ∈ drawn_blocks g n block_size i, j ≤ n - block_size := by
  intro j hj
  unfold drawn_blocks at hj
  rw [List.mem_map] at hj
  obtain ⟨t, _, rfl⟩ := hj
  have h1 : g (i * (n / block_size) + t) % popSize n block_size <
      popSize n block_size := Nat.mod_lt _ (popSize_pos hn)
  have h2 := popSize_eq hn
  omega

/-- Exactly `k = n / block_size` start indices are drawn per replicate. -/
theorem drawn_blocks_length (g : Nat → Nat) (n block_size i : Nat) :
    (drawn_blocks g n block_size i).length = n / block_size := by
  unfold drawn_blocks
  rw [List.length_map, List.length_range]

/-- When every drawn index is in range and the series has length `n`, the
resampled series has length `(n / block_size) * block_size` (the `[:n]`
truncation is a no-op since `(n / block_size) * block_size ≤ n`). -/
theorem resample_length (g : Nat → Nat) (ts : List ℚ) {n block_size : Nat}
    (i : Nat) (hn : block_size ≤ n) (hlen : ts.length = n) :
    (resample ts (drawn_blocks g n block_size i) block_size n).length =
      (n / block_size) * block_size := by
  unfold resample
  rw [List.length_take, List.length_flatten]
  have hmap : ((drawn_blocks g n block_size i).map
        (fun j => pySlice ts j block_size)).map List.length =
      (drawn_blocks g n block_size i).map (fun _ => block_size) := by
    rw [List.map_map]
    apply List.map_congr_left
    intro j hj
    have := drawn_blocks_mem g i hn j hj
    simp only [Function.comp_apply]
    exact pySlice_length ts (by omega)
  rw [hmap, List.map_const', List.sum_replicate, drawn_blocks_length,
    smul_eq_mul]
  exact inf_eq_right.mpr (Nat.div_mul_le_self n block_size)

/-- The mean of a nonempty constant sequence is the constant. -/
theorem mean_const {xs : List ℚ} {c : ℚ} (hne : xs ≠ []) (h : ∀ x ∈ xs, x = c) :
    mean xs = c := by
  unfold mean
  rw [List.sum_eq_card_nsmul xs c h, nsmul_eq_mul]
  have hlen0 : xs.length ≠ 0 := fun h0 => hne (List.length_eq_zero.mp h0)
  exact mul_div_cancel_left₀ c (Nat.cast_ne_zero.mpr hlen0)

/-- Elements of a resampled series come from the original series. -/
theorem resample_subset (ts : List ℚ) (blocks : List Nat) (block_size n : Nat) :
    ∀ x ∈ resample ts blocks block_size n, x ∈ ts := by
  intro x hx
  unfold resample at hx
  have hx1 := List.take_subset n _ hx
  rw [List.mem_flatten] at hx1
  obtain ⟨l, hl, hxl⟩ := hx1
  rw [List.mem_map] at hl
  obtain ⟨j, _, rfl⟩ := hl
  exact List.drop_subset j ts (List.take_subset block_size _ hxl)

/-- C1: under valid inputs, each of the `n_bootstraps` replicates draws
`k = n / block_size` start indices from its own segment of the random
stream, every drawn index lies in `[0, n - block_size]`, the same drawn
indices are used to slice both series, the slices are concatenated in draw
order and truncated to `n` elements, and each resampled series has length
`k * block_size`; the returned distribution is the in-order list of the
replicate statistics. -/
theorem C1_block_resampling (g : Nat → Nat) (ts1 ts2 : List ℚ)
    (block_size n_bootstraps : Nat) (hlen : ts2.length = ts1.length)
    (hb : 1 ≤ block_size) (hn : block_size ≤ ts1.length)
    (_hR : 1 ≤ n_bootstraps) :
    block_bootstrap g ts1 ts2 block_size n_bootstraps =
      .ok (mean_diff ts1 ts2,
        (List.range n_bootstraps).map
          (replicate_stat g ts1 ts2 block_size ts1.length)) ∧
    ∀ i < n_bootstraps,
      (drawn_blocks g ts1.length block_size i).length =
        ts1.length / block_size ∧
      (∀ j ∈ drawn_blocks g ts1.length block_size i,
        j ≤ ts1.length - block_size) ∧
      replicate_stat g ts1 ts2 block_size ts1.length i =
        mean_diff
          (resample ts1 (drawn_blocks g ts1.length block_size i) block_size
            ts1.length)
          (resample ts2 (drawn_blocks g ts1.length block_size i) block_size
            ts1.length) ∧
      (resample ts1 (drawn_blocks g ts1.length block_size i) block_size
          ts1.length).length = (ts1.length / block_size) * block_size ∧
      (resample ts2 (drawn_blocks g ts1.length block_size i) block_size
          ts1.length).length = (ts1.length / block_size) * block_size := by
  refine ⟨block_bootstrap_ok g ts1 ts2 block_size n_bootstraps hb hn, fun i _ => ?_⟩
  exact ⟨drawn_blocks_length g ts1.length block_size i,
    drawn_blocks_mem g i hn, rfl,
    resample_length g ts1 i hn rfl,
    resample_length g ts2 i hn hlen⟩

/-- Witness for C1 at `ts1 = [1,2,3,4,5]`, `ts2 = [5,4,3,2,1]`,
`block_size = 2`, `n_bootstraps = 2`, `g t = t + 3`. -/
theorem C1_block_resampling_witness :
    ([(5 : ℚ), 4, 3, 2, 1] : List ℚ).length =
      ([(1 : ℚ), 2, 3, 4, 5] : List ℚ).length ∧
    1 ≤ 2 ∧ 2 ≤ ([(1 : ℚ), 2, 3, 4, 5] : List ℚ).length ∧ 1 ≤ 2 ∧
    (block_bootstrap (fun t => t + 3) [1, 2, 3, 4, 5] [5, 4, 3, 2, 1] 2 2 =
      .ok (mean_diff [1, 2, 3, 4, 5] [5, 4, 3, 2, 1],
        (List.range 2).map
          (replicate_stat (fun t => t + 3) [1, 2, 3, 4, 5] [5, 4, 3, 2, 1] 2
            ([(1 : ℚ), 2, 3, 4, 5] : List ℚ).length)) ∧
    ∀ i < 2,
      (drawn_blocks (fun t => t + 3)
          ([(1 : ℚ), 2, 3, 4, 5] : List ℚ).length 2 i).length =
        ([(1 : ℚ), 2, 3, 4, 5] : List ℚ).length / 2 ∧
      (∀ j ∈ drawn_blocks (fun t => t + 3)
          ([(1 : ℚ), 2, 3, 4, 5] : List ℚ).length 2 i,
        j ≤ ([(1 : ℚ), 2, 3, 4, 5] : List ℚ).length - 2) ∧
      replicate_stat (fun t => t + 3) [1, 2, 3, 4, 5] [5, 4, 3, 2, 1] 2
          ([(1 : ℚ), 2, 3, 4, 5] : List ℚ).length i =
        mean_diff
          (resample [1, 2, 3, 4, 5]
            (drawn_blocks (fun t => t + 3)
              ([(1 : ℚ), 2, 3, 4, 5] : List ℚ).length 2 i) 2
            ([(1 : ℚ), 2, 3, 4, 5] : List ℚ).length)
          (resample [5, 4, 3, 2, 1]
            (drawn_blocks (fun t => t + 3)
              ([(1 : ℚ), 2, 3, 4, 5] : List ℚ).length 2 i) 2
            ([(1 : ℚ), 2, 3, 4, 5] : List ℚ).length) ∧
      (resample [1, 2, 3, 4, 5]
          (drawn_blocks (fun t => t + 3)
            ([(1 : ℚ), 2, 3, 4, 5] : List ℚ).length 2 i) 2
          ([(1 : ℚ), 2, 3, 4, 5] : List ℚ).length).length =
        (([(1 : ℚ), 2, 3, 4, 5] : List ℚ).length / 2) * 2 ∧
      (resample [5, 4, 3, 2, 1]
          (drawn_blocks (fun t => t + 3)
            ([(1 : ℚ), 2, 3, 4, 5] : List ℚ).length 2 i) 2
          ([(1 : ℚ), 2, 3, 4, 5] : List ℚ).length).length =
        (([(1 : ℚ), 2, 3, 4, 5] : List ℚ).length / 2) * 2) :=
  ⟨by decide, by decide, by decide, by decide,
    C1_block_resampling (fun t => t + 3) [1, 2, 3, 4, 5] [5, 4, 3, 2, 1] 2 2
      (by decide) (by decide) (by decide) (by decide)⟩

/-- C3: for every valid input the observed difference returned by
`block_bootstrap` is the plain difference of arithmetic means of the two
unresampled input series; the expression `mean ts1 - mean ts2` mentions
neither `block_size`, `n_bootstraps` nor the random stream. -/
theorem C3_observed_diff (g : Nat → Nat) (ts1 ts2 : List ℚ)
    (block_size n_bootstraps : Nat) (_hlen : ts2.length = ts1.length)
    (hb : 1 ≤ block_size) (hn : block_size ≤ ts1.length)
    (_hR : 1 ≤ n_bootstraps) :
    ∃ distribution, block_bootstrap g ts1 ts2 block_size n_bootstraps =
      .ok (mean ts1 - mean ts2, distribution) :=
  ⟨_, block_bootstrap_ok g ts1 ts2 block_size n_bootstraps hb hn⟩

/-- Witness for C3 at `ts1 = [1,2,3,4]`, `ts2 = [4,3,2,1]`,
`block_size = 2`, `n_bootstraps = 3`, `g t = 2 * t`. -/
theorem C3_observed_diff_witness :
    ([(4 : ℚ), 3, 2, 1] : List ℚ).length =
      ([(1 : ℚ), 2, 3, 4] : List ℚ).length ∧
    1 ≤ 2 ∧ 2 ≤ ([(1 : ℚ), 2, 3, 4] : List ℚ).length ∧ 1 ≤ 3 ∧
    ∃ distribution,
      block_bootstrap (fun t => 2 * t) [1, 2, 3, 4] [4, 3, 2, 1] 2 3 =
        .ok (mean [1, 2, 3, 4] - mean [4, 3, 2, 1], distribution) :=
  ⟨by decide, by decide, by decide, by decide,
    C3_observed_diff (fun t => 2 * t) [1, 2, 3, 4] [4, 3, 2, 1] 2 3
      (by decide) (by decide) (by decide) (by decide)⟩

/-- C4: for every valid input the returned distribution has exactly
`n_bootstraps` elements. -/
theorem C4_distribution_length (g : Nat → Nat) (ts1 ts2 : List ℚ)
    (block_size n_bootstraps : Nat) (_hlen : ts2.length = ts1.length)
    (hb : 1 ≤ block_size) (hn : block_size ≤ ts1.length)
    (_hR : 1 ≤ n_bootstraps) :
    ∃ observed_diff distribution,
      block_bootstrap g ts1 ts2 block_size n_bootstraps =
        .ok (observed_diff, distribution) ∧
      distribution.length = n_bootstraps :=
  ⟨_, _, block_bootstrap_ok g ts1 ts2 block_size n_bootstraps hb hn, by
    rw [List.length_map, List.length_range]⟩

/-- Witness for C4 at `ts1 = [1,2,3,4,5]`, `ts2 = [2,2,2,2,2]`,
`block_size = 3`, `n_bootstraps = 4`, `g t = t * t`. -/
theorem C4_distribution_length_witness :
    ([(2 : ℚ), 2, 2, 2, 2] : List ℚ).length =
      ([(1 : ℚ), 2, 3, 4, 5] : List ℚ).length ∧
    1 ≤ 3 ∧ 3 ≤ ([(1 : ℚ), 2, 3, 4, 5] : List ℚ).length ∧ 1 ≤ 4 ∧
    ∃ observed_diff distribution,
      block_bootstrap (fun t => t * t) [1, 2, 3, 4, 5] [2, 2, 2, 2, 2] 3 4 =
        .ok (observed_diff, distribution) ∧
      distribution.length = 4 :=
  ⟨by decide, by decide, by decide, by decide,
    C4_distribution_length (fun t => t * t) [1, 2, 3, 4, 5] [2, 2, 2, 2, 2] 3 4
      (by decide) (by decide) (by decide) (by decide)⟩

/-- C10: with `n_bootstraps = 0` the function does not raise: the loop body
never runs and the observed difference is returned together with an empty
distribution.  This holds for every series pair and every block size, in
particular for valid ones. -/
theorem C10_zero_replicates (g : Nat → Nat) (ts1 ts2 : List ℚ)
    (block_size : Nat) :
    block_bootstrap g ts1 ts2 block_size 0 = .ok (mean_diff ts1 ts2, []) :=
  rfl

/-- C2 counterexample: `block_bootstrap([1,2,3], [1,2,3], 1, 0)` does not
fail at all, let alone with an `InvalidInput` error raised before
resampling: the source performs no input validation and the call returns
the observed difference `0` with an empty distribution. -/
theorem C2_counterexample :
    block_bootstrap (fun t => t) [1, 2, 3] [1, 2, 3] 1 0 = .ok (0, []) := by
  have h : block_bootstrap (fun t => t) [1, 2, 3] [1, 2, 3] 1 0 =
      .ok (mean_diff [1, 2, 3] [1, 2, 3], []) := rfl
  rw [h]
  norm_num [mean_diff, mean]

/-- C2 amended: `block_bootstrap` performs no input validation and has no
`InvalidInput` error.  On the spec's three test inputs: with mismatched
lengths it silently succeeds (slices of the shorter series are truncated);
with `block_size > n` it fails only inside the first resampling iteration,
with the `ValueError` of an empty concatenation (zero blocks are drawn),
not with a pre-validation error; with `n_bootstraps = 0` it succeeds and
returns an empty distribution. -/
theorem C2_amended :
    block_bootstrap (fun _ => 0) [1, 2, 3] [1, 2] 2 10 =
      .ok (1 / 2, List.replicate 10 0) ∧
    block_bootstrap (fun t => t) [1, 2, 3] [1, 2, 3] 5 10 =
      .error .emptyConcatenate ∧
    block_bootstrap (fun t => t) [1, 2, 3] [1, 2, 3] 1 0 = .ok (0, []) := by
  refine ⟨?_, rfl, ?_⟩
  · have h := block_bootstrap_ok (fun _ => 0) [1, 2, 3] [1, 2] 2 10
      (by norm_num) (by norm_num)
    rw [h]
    have hmap : (List.range 10).map
        (replicate_stat (fun _ => 0) [1, 2, 3] [1, 2] 2
          ([(1 : ℚ), 2, 3] : List ℚ).length) =
        List.replicate 10 (0 : ℚ) := by
      rw [List.eq_replicate_iff]
      refine ⟨by simp, ?_⟩
      intro b hb
      rw [List.mem_map] at hb
      obtain ⟨i, hi, rfl⟩ := hb
      have hdb : drawn_blocks (fun _ => 0)
          ([(1 : ℚ), 2, 3] : List ℚ).length 2 i = [0] := rfl
      unfold replicate_stat
      rw [hdb]
      norm_num [resample, pySlice, mean_diff, mean]
    rw [hmap]
    norm_num [mean_diff, mean]
  · have h : block_bootstrap (fun t => t) [1, 2, 3] [1, 2, 3] 1 0 =
        .ok (mean_diff [1, 2, 3] [1, 2, 3], []) := rfl
    rw [h]
    norm_num [mean_diff, mean]

/-- Two random streams that agree on the draws a replicate consumes give the
same iteration result. -/
theorem bootstrap_iter_congr (g1 g2 : Nat → Nat) (ts1 ts2 : List ℚ)
    (block_size n i : Nat)
    (h : ∀ t < n / block_size,
      g1 (i * (n / block_size) + t) = g2 (i * (n / block_size) + t)) :
    bootstrap_iter g1 ts1 ts2 block_size n i =
      bootstrap_iter g2 ts1 ts2 block_size n i := by
  have hmap : (List.range (n / block_size)).map
      (fun t => g1 (i * (n / block_size) + t) % popSize n block_size) =
      (List.range (n / block_size)).map
      (fun t => g2 (i * (n / block_size) + t) % popSize n block_size) :=
    List.map_congr_left (fun t ht => by rw [h t (List.mem_range.mp ht)])
  simp only [bootstrap_iter, npChoice, hmap]

/-- Iteration-wise equal bodies give equal loops. -/
theorem bootstrap_loop_congr (g1 g2 : Nat → Nat) (ts1 ts2 : List ℚ)
    (block_size n : Nat) (l : List Nat)
    (h : ∀ i ∈ l, bootstrap_iter g1 ts1 ts2 block_size n i =
      bootstrap_iter g2 ts1 ts2 block_size n i) :
    bootstrap_loop g1 ts1 ts2 block_size n l =
      bootstrap_loop g2 ts1 ts2 block_size n l := by
  induction l with
  | nil => rfl
  | cons i rest ih =>
    simp only [bootstrap_loop, h i (List.mem_cons_self i rest),
      ih (fun j hj => h j (List.mem_cons_of_mem i hj))]

/-- C5: the call is a deterministic function of the inputs and the random
source state.  Only the first `n_bootstraps * (n / block_size)` raw draws
are consumed, so two invocations whose random streams agree there produce
identical results, distribution included, element by element. -/
theorem C5_determinism (g1 g2 : Nat → Nat) (ts1 ts2 : List ℚ)
    (block_size n_bootstraps : Nat)
    (h : ∀ t < n_bootstraps * (ts1.length / block_size), g1 t = g2 t) :
    block_bootstrap g1 ts1 ts2 block_size n_bootstraps =
      block_bootstrap g2 ts1 ts2 block_size n_bootstraps := by
  have hiter : ∀ i ∈ List.range n_bootstraps,
      bootstrap_iter g1 ts1 ts2 block_size ts1.length i =
        bootstrap_iter g2 ts1 ts2 block_size ts1.length i := by
    intro i hi
    have hi2 : i < n_bootstraps := List.mem_range.mp hi
    apply bootstrap_iter_congr
    intro t ht
    apply h
    have h1 : i * (ts1.length / block_size) + t <
        (i + 1) * (ts1.length / block_size) := by
      rw [add_mul, one_mul]
      omega
    have h2 : (i + 1) * (ts1.length / block_size) ≤
        n_bootstraps * (ts1.length / block_size) :=
      Nat.mul_le_mul_right _ (by omega)
    omega
  simp only [block_bootstrap,
    bootstrap_loop_congr g1 g2 ts1 ts2 block_size ts1.length
      (List.range n_bootstraps) hiter]

/-- Witness for C5 at `ts1 = [1,2,3,4]`, `ts2 = [4,3,2,1]`,
`block_size = 2`, `n_bootstraps = 3`, with two streams that agree on the
six consumed draws and differ later. -/
theorem C5_determinism_witness :
    (∀ t < 3 * (([(1 : ℚ), 2, 3, 4] : List ℚ).length / 2),
      (fun u => u) t = (fun u => min u 5) t) ∧
    block_bootstrap (fun u => u) [1, 2, 3, 4] [4, 3, 2, 1] 2 3 =
      block_bootstrap (fun u => min u 5) [1, 2, 3, 4] [4, 3, 2, 1] 2 3 :=
  ⟨by decide,
    C5_determinism (fun u => u) (fun u => min u 5) [1, 2, 3, 4] [4, 3, 2, 1]
      2 3 (by decide)⟩

/-- C6: with `block_size = n` and a single replicate, the only possible
start index is `0` (whatever the random stream yields), each resampled
series is a copy of the full input series, and the single replicate
statistic equals the observed difference exactly. -/
theorem C6_full_block_single_replicate (g : Nat → Nat) (ts1 ts2 : List ℚ)
    (hn : 1 ≤ ts1.length) (hlen : ts2.length = ts1.length) :
    drawn_blocks g ts1.length ts1.length 0 = [0] ∧
    resample ts1 [0] ts1.length ts1.length = ts1 ∧
    resample ts2 [0] ts1.length ts1.length = ts2 ∧
    block_bootstrap g ts1 ts2 ts1.length 1 =
      .ok (mean_diff ts1 ts2, [mean_diff ts1 ts2]) := by
  have hk : ts1.length / ts1.length = 1 := Nat.div_self hn
  have hpop : popSize ts1.length ts1.length = 1 := by unfold popSize; omega
  have hdb : drawn_blocks g ts1.length ts1.length 0 = [0] := by
    unfold drawn_blocks
    rw [hk, hpop]
    simp [List.range_succ, Nat.mod_one]
  have hres1 : resample ts1 [0] ts1.length ts1.length = ts1 := by
    unfold resample pySlice
    simp
  have hres2 : resample ts2 [0] ts1.length ts1.length = ts2 := by
    unfold resample pySlice
    rw [← hlen]
    simp
  have hstat : replicate_stat g ts1 ts2 ts1.length ts1.length 0 =
      mean_diff ts1 ts2 := by
    unfold replicate_stat
    rw [hdb, hres1, hres2]
  refine ⟨hdb, hres1, hres2, ?_⟩
  rw [block_bootstrap_ok g ts1 ts2 ts1.length 1 hn le_rfl]
  simp only [List.range_succ, List.range_zero, List.nil_append, List.map_cons,
    List.map_nil, hstat]

/-- Witness for C6 at `ts1 = [3,1,4]`, `ts2 = [1,5,9]`, `g t = t + 11`. -/
theorem C6_full_block_single_replicate_witness :
    1 ≤ ([(3 : ℚ), 1, 4] : List ℚ).length ∧
    ([(1 : ℚ), 5, 9] : List ℚ).length = ([(3 : ℚ), 1, 4] : List ℚ).length ∧
    (drawn_blocks (fun t => t + 11) ([(3 : ℚ), 1, 4] : List ℚ).length
        ([(3 : ℚ), 1, 4] : List ℚ).length 0 = [0] ∧
    resample [3, 1, 4] [0] ([(3 : ℚ), 1, 4] : List ℚ).length
        ([(3 : ℚ), 1, 4] : List ℚ).length = [3, 1, 4] ∧
    resample [1, 5, 9] [0] ([(3 : ℚ), 1, 4] : List ℚ).length
        ([(3 : ℚ), 1, 4] : List ℚ).length = [1, 5, 9] ∧
    block_bootstrap (fun t => t + 11) [3, 1, 4] [1, 5, 9]
        ([(3 : ℚ), 1, 4] : List ℚ).length 1 =
      .ok (mean_diff [3, 1, 4] [1, 5, 9], [mean_diff [3, 1, 4] [1, 5, 9]])) :=
  ⟨by decide, by decide,
    C6_full_block_single_replicate (fun t => t + 11) [3, 1, 4] [1, 5, 9]
      (by decide) (by decide)⟩

/-- C7: when both series are constant, every element of the returned
distribution equals the observed difference exactly, so the bootstrap
distribution has zero variance; this holds for every random stream. -/
theorem C7_constant_series (g : Nat → Nat) (ts1 ts2 : List ℚ) (c1 c2 : ℚ)
    (block_size n_bootstraps : Nat)
    (hc1 : ∀ x ∈ ts1, x = c1) (hc2 : ∀ x ∈ ts2, x = c2)
    (hlen : ts2.length = ts1.length) (hb : 1 ≤ block_size)
    (hn : block_size ≤ ts1.length) (_hR : 1 ≤ n_bootstraps) :
    ∃ distribution,
      block_bootstrap g ts1 ts2 block_size n_bootstraps =
        .ok (mean_diff ts1 ts2, distribution) ∧
      ∀ d ∈ distribution, d = mean_diff ts1 ts2 := by
  refine ⟨_, block_bootstrap_ok g ts1 ts2 block_size n_bootstraps hb hn, ?_⟩
  intro d hd
  rw [List.mem_map] at hd
  obtain ⟨i, _, rfl⟩ := hd
  have hn1 : 1 ≤ ts1.length := le_trans hb hn
  have hk : 1 ≤ ts1.length / block_size := (Nat.one_le_div_iff hb).mpr hn
  have hts1 : ts1 ≠ [] := List.length_pos.mp (by omega)
  have hts2 : ts2 ≠ [] := List.length_pos.mp (by omega)
  have hr1ne : resample ts1 (drawn_blocks g ts1.length block_size i)
      block_size ts1.length ≠ [] := by
    apply List.length_pos.mp
    rw [resample_length g ts1 i hn rfl]
    exact Nat.mul_pos hk hb
  have hr2ne : resample ts2 (drawn_blocks g ts1.length block_size i)
      block_size ts1.length ≠ [] := by
    apply List.length_pos.mp
    rw [resample_length g ts2 i hn hlen]
    exact Nat.mul_pos hk hb
  unfold replicate_stat mean_diff
  rw [mean_const hr1ne (fun x hx => hc1 x (resample_subset ts1 _ _ _ x hx)),
    mean_const hr2ne (fun x hx => hc2 x (resample_subset ts2 _ _ _ x hx)),
    mean_const hts1 hc1, mean_const hts2 hc2]

/-- Witness for C7 at `ts1 = [2,2,2,2]`, `ts2 = [5,5,5,5]`,
`block_size = 3`, `n_bootstraps = 2`, `g t = 7 * t`. -/
theorem C7_constant_series_witness :
    (∀ x ∈ ([(2 : ℚ), 2, 2, 2] : List ℚ), x = 2) ∧
    (∀ x ∈ ([(5 : ℚ), 5, 5, 5] : List ℚ), x = 5) ∧
    ([(5 : ℚ), 5, 5, 5] : List ℚ).length = ([(2 : ℚ), 2, 2, 2] : List ℚ).length ∧
    1 ≤ 3 ∧ 3 ≤ ([(2 : ℚ), 2, 2, 2] : List ℚ).length ∧ 1 ≤ 2 ∧
    ∃ distribution,
      block_bootstrap (fun t => 7 * t) [2, 2, 2, 2] [5, 5, 5, 5] 3 2 =
        .ok (mean_diff [2, 2, 2, 2] [5, 5, 5, 5], distribution) ∧
      ∀ d ∈ distribution, d = mean_diff [2, 2, 2, 2] [5, 5, 5, 5] :=
  ⟨by norm_num, by norm_num, by decide, by decide, by decide, by decide,
    C7_constant_series (fun t => 7 * t) [2, 2, 2, 2] [5, 5, 5, 5] 2 5 3 2
      (by norm_num) (by norm_num) (by decide) (by decide) (by decide)
      (by decide)⟩

/-- C9: swapping the two series negates the observed difference and every
element of the distribution, because the same block start indices are drawn
(the stream, `n` and `block_size` are unchanged) and the statistic is
antisymmetric. -/
theorem C9_swap_negates (g : Nat → Nat) (ts1 ts2 : List ℚ)
    (block_size n_bootstraps : Nat) (hlen : ts2.length = ts1.length)
    (hb : 1 ≤ block_size) (hn : block_size ≤ ts1.length)
    (_hR : 1 ≤ n_bootstraps) :
    ∃ observed_diff distribution,
      block_bootstrap g ts1 ts2 block_size n_bootstraps =
        .ok (observed_diff, distribution) ∧
      block_bootstrap g ts2 ts1 block_size n_bootstraps =
        .ok (-observed_diff, distribution.map (fun x => -x)) := by
  refine ⟨_, _, block_bootstrap_ok g ts1 ts2 block_size n_bootstraps hb hn, ?_⟩
  rw [block_bootstrap_ok g ts2 ts1 block_size n_bootstraps hb
    (hlen ▸ hn), hlen]
  have hstat : ∀ i ∈ List.range n_bootstraps,
      replicate_stat g ts2 ts1 block_size ts1.length i =
        ((fun x => -x) ∘ replicate_stat g ts1 ts2 block_size ts1.length) i := by
    intro i _
    unfold replicate_stat mean_diff
    simp [neg_sub]
  rw [List.map_congr_left hstat, List.map_map,
    show mean_diff ts2 ts1 = -mean_diff ts1 ts2 by
      unfold mean_diff; rw [neg_sub]]

/-- Witness for C9 at `ts1 = [1,2,3,4]`, `ts2 = [2,2,2,2]`,
`block_size = 2`, `n_bootstraps = 2`, `g t = t + 1`. -/
theorem C9_swap_negates_witness :
    ([(2 : ℚ), 2, 2, 2] : List ℚ).length = ([(1 : ℚ), 2, 3, 4] : List ℚ).length ∧
    1 ≤ 2 ∧ 2 ≤ ([(1 : ℚ), 2, 3, 4] : List ℚ).length ∧ 1 ≤ 2 ∧
    ∃ observed_diff distribution,
      block_bootstrap (fun t => t + 1) [1, 2, 3, 4] [2, 2, 2, 2] 2 2 =
        .ok (observed_diff, distribution) ∧
      block_bootstrap (fun t => t + 1) [2, 2, 2, 2] [1, 2, 3, 4] 2 2 =
        .ok (-observed_diff, distribution.map (fun x => -x)) :=
  ⟨by decide, by decide, by decide, by decide,
    C9_swap_negates (fun t => t + 1) [1, 2, 3, 4] [2, 2, 2, 2] 2 2
      (by decide) (by decide) (by decide) (by decide)⟩

/-- The two input arrays as explicit mutable state, to express the frame
property that `block_bootstrap` never writes to them. -/
structure Mem where
  ts1 : List ℚ
  ts2 : List ℚ
  deriving DecidableEq, Repr

/-- Read the slice `ts1[j : j+b]` from memory: slicing allocates a fresh
sequence and performs no write. -/
def readSlice1 (m : Mem) (j b : Nat) : List ℚ × Mem := (pySlice m.ts1 j b, m)

/-- Read the slice `ts2[j : j+b]` from memory. -/
def readSlice2 (m : Mem) (j b : Nat) : List ℚ × Mem := (pySlice m.ts2 j b, m)

/-- The list comprehension `[ts[j : j+b] for j in blocks]`, threading the
memory through every read in order. -/
def slicesSt (read : Mem → Nat → Nat → List ℚ × Mem) (b : Nat) :
    List Nat → Mem → List (List ℚ) × Mem
  | [], m => ([], m)
  | j :: js, m =>
    let sm := read m j b
    let rest := slicesSt read b js sm.2
    (sm.1 :: rest.1, rest.2)

/-- One loop iteration with the memory threaded through all reads. -/
def bootstrap_iterSt (g : Nat → Nat) (block_size n i : Nat) (m : Mem) :
    Except NpError (ℚ × Mem) :=
  if block_size = 0 then .error .zeroDivision
  else
    let k := n / block_size
    match npChoice g (i * k) (popSize n block_size) k with
    | .error e => .error e
    | .ok blocks =>
      let s1 := slicesSt readSlice1 block_size blocks m
      match npConcat s1.1 with
      | .error e => .error e
      | .ok ts1_resampled =>
        let s2 := slicesSt readSlice2 block_size blocks s1.2
        match npConcat s2.1 with
        | .error e => .error e
        | .ok ts2_resampled =>
          .ok (mean_diff (ts1_resampled.take n) (ts2_resampled.take n), s2.2)

/-- The replicate loop with the memory threaded through every iteration. -/
def bootstrap_loopSt (g : Nat → Nat) (block_size n : Nat) :
    List Nat → Mem → Except NpError (List ℚ × Mem)
  | [], m => .ok ([], m)
  | i :: rest, m =>
    match bootstrap_iterSt g block_size n i m with
    | .error e => .error e
    | .ok dm =>
      match bootstrap_loopSt g block_size n rest dm.2 with
      | .error e => .error e
      | .ok dsm => .ok (dm.1 :: dsm.1, dsm.2)

/-- `block_bootstrap` on explicit state, returning the final memory. -/
def block_bootstrapSt (g : Nat → Nat) (m : Mem)
    (block_size n_bootstraps : Nat) :
    Except NpError ((ℚ × List ℚ) × Mem) :=
  let n := m.ts1.length
  let observed_diff := mean_diff m.ts1 m.ts2
  match bootstrap_loopSt g block_size n (List.range n_bootstraps) m with
  | .error e => .error e
  | .ok dsm => .ok ((observed_diff, dsm.1), dsm.2)

theorem slicesSt_readSlice1 (b : Nat) (js : List Nat) (m : Mem) :
    slicesSt readSlice1 b js m = (js.map (fun j => pySlice m.ts1 j b), m) := by
  induction js with
  | nil => rfl
  | cons j rest ih => simp [slicesSt, readSlice1, ih]

theorem slicesSt_readSlice2 (b : Nat) (js : List Nat) (m : Mem) :
    slicesSt readSlice2 b js m = (js.map (fun j => pySlice m.ts2 j b), m) := by
  induction js with
  | nil => rfl
  | cons j rest ih => simp [slicesSt, readSlice2, ih]

/-- One iteration leaves the memory untouched and computes the pure
iteration's value. -/
theorem bootstrap_iterSt_eq (g : Nat → Nat) (block_size n i : Nat) (m : Mem) :
    bootstrap_iterSt g block_size n i m =
      (bootstrap_iter g m.ts1 m.ts2 block_size n i).map (fun d => (d, m)) := by
  by_cases hbs : block_size = 0
  · simp [bootstrap_iterSt, bootstrap_iter, hbs, Except.map]
  · simp only [bootstrap_iterSt, bootstrap_iter, hbs, if_false, bind,
      Except.bind, slicesSt_readSlice1, slicesSt_readSlice2]
    cases npChoice g (i * (n / block_size)) (popSize n block_size)
        (n / block_size) with
    | error e => rfl
    | ok blocks =>
      dsimp only
      cases npConcat (blocks.map fun j => pySlice m.ts1 j block_size) with
      | error e => rfl
      | ok r1 =>
        dsimp only
        cases npConcat (blocks.map fun j => pySlice m.ts2 j block_size) with
        | error e => rfl
        | ok r2 => rfl

/-- The loop leaves the memory untouched and computes the pure loop's
values. -/
theorem bootstrap_loopSt_eq (g : Nat → Nat) (block_size n : Nat)
    (l : List Nat) (m : Mem) :
    bootstrap_loopSt g block_size n l m =
      (bootstrap_loop g m.ts1 m.ts2 block_size n l).map (fun ds => (ds, m)) := by
  induction l with
  | nil => rfl
  | cons i rest ih =>
    simp only [bootstrap_loopSt, bootstrap_loop, bootstrap_iterSt_eq, bind,
      Except.bind]
    cases bootstrap_iter g m.ts1 m.ts2 block_size n i with
    | error e => rfl
    | ok d =>
      simp only [Except.map, ih]
      cases bootstrap_loop g m.ts1 m.ts2 block_size n rest with
      | error e => rfl
      | ok ds => rfl

/-- C8: `block_bootstrap` never mutates its input series: in the
state-threaded embedding, where every slice is an explicit read, the final
memory equals the initial memory for every call (including failing ones,
which raise before returning), and the computed value is that of the pure
function on the unchanged inputs. -/
theorem C8_no_mutation (g : Nat → Nat) (m : Mem)
    (block_size n_bootstraps : Nat) :
    block_bootstrapSt g m block_size n_bootstraps =
      (block_bootstrap g m.ts1 m.ts2 block_size n_bootstraps).map
        (fun r => (r, m)) := by
  simp only [block_bootstrapSt, block_bootstrap, bootstrap_loopSt_eq]
  cases bootstrap_loop g m.ts1 m.ts2 block_size m.ts1.length
      (List.range n_bootstraps) with
  | error e => rfl
  | ok ds => rfl
